import Mathlib

/-!
Shallow embedding of the `serr` Go library (src/serr.go and src/format.go):
stack-capture error values (`rootError`, `wrapError`, `joinError`), the
anchor search `Cause`, the delta-record walk `NextExtraStackError`, the
hierarchy reconstructor `unpack`/`Unpack` and the string renderer
`toCustomString`/`ToString`.

Modelling conventions:
* `uintptr` program counters are `Nat` (opaque identity tokens, compared for
  equality only; `0` is the zero pc).
* Ambient stack captures (`runtime.Callers` / `NewCallers`) are passed to the
  embedded constructors as explicit `List Nat` arguments: each constructor
  receives the capture the runtime would have produced at its call site.
* `map[string]interface{}` field sets are association lists
  `List (String × String)` with opaque values; `nil` maps are `[]`.
* Go `error` interface values are `Option Err`; `none` is the nil error.
  Foreign (non-serr) errors are `Err.ext`; a foreign error that wraps
  another error has `cause = some _`, a foreign leaf has `cause = none`
  (Go distinguishes "no Unwrap method" from "Unwrap returns nil", but every
  consumer in this library treats the two identically, so they are merged).
* A Go panic (out-of-range slice index in `unpack`) is modelled by `none`
  from an `Option`-valued function.
* The host primitives `fmt.Sprintf` (message interpolation), `fmt.Sprint` on
  an external error, `fmt.Sprint` on a field map and the `runtime` source
  location resolver are external collaborators; they are threaded through as
  explicit function parameters (`spf`, `showE`, `ff`, `res`).
-/

namespace Serr

/-- format.go `Location`: a resolved stack frame. -/
structure Location where
  Filename : String
  Line : Nat
  FuncName : String
deriving Repr, DecidableEq

/-- serr.go `AdditionalInformation` (= format.go's `ExtraStackData`): the
delta record of a wrap: its own call site, that site's caller, and the
optional fields/message payload. -/
structure AdditionalInformation where
  caller : Nat
  callerCaller : Nat
  fields : List (String × String)
  msg : String
  msgArgs : List String
deriving Repr, DecidableEq

/-- The error values of the library plus foreign errors:
`root` is `rootError` (full capture, optional delta record, optional cause),
`wrap` is `wrapError` (delta record, cause), `join` is `joinError`
(full capture, cause list), `ext` is any non-serr error value. The
`Option` fields allow arbitrarily malformed values (nil record, nil cause),
as the claims about robustness require. -/
inductive Err where
  | root (callers : List Nat) (info : Option AdditionalInformation) (cause : Option Err)
  | wrap (info : Option AdditionalInformation) (cause : Option Err)
  | join (callers : List Nat) (causes : List Err)
  | ext (name : String) (cause : Option Err)
deriving Repr

/-- The `Callers()` method of the `StackError`/`FullStackError` interface: only
`rootError` and `joinError` implement it. For the other variants the Go
type assertion in `unpack` would fail; `Cause` never returns them
(`Cause_isAnchor` below), so the `[]` result here is unreachable there. -/
def Callers : Err → List Nat
  | .root cs _ _ => cs
  | .join cs _ => cs
  | .wrap _ _ => []
  | .ext _ _ => []

/-- True exactly for the variants implementing the full-capture interface. -/
def isAnchor : Err → Bool
  | .root _ _ _ => true
  | .join _ _ => true
  | _ => false

/-- True exactly for `joinError` values (the `errs[0].(*joinError)` test). -/
def isJoin : Err → Bool
  | .join _ _ => true
  | _ => false

/-- serr.go `Cause` (= the anchor search `findAnchor`): walk the single-cause
chain and return the first value that owns a non-empty full capture.
A `join` with an empty capture has no single-cause `Unwrap`, so the walk
stops there with "not found", exactly as in the Go loop. -/
def Cause : Option Err → Option Err
  | none => none
  | some (.root cs info cause) =>
    if cs.isEmpty then Cause cause else some (.root cs info cause)
  | some (.wrap _ cause) => Cause cause
  | some (.join cs causes) =>
    if cs.isEmpty then none else some (.join cs causes)
  | some (.ext _ cause) => Cause cause

/-- The body of serr.go `nextStackFrameError` (= format.go's
`NextExtraStackError`) after one unwrap step: if the current value is not a
delta-record carrier (`join`, foreign, nil) stop with "not found"; if it
carries a non-nil record return it; otherwise unwrap again. -/
def checkSFE : Option Err → Option Err
  | none => none
  | some (.root cs (some a) cause) => some (.root cs (some a) cause)
  | some (.root _ none cause) => checkSFE cause
  | some (.wrap (some a) cause) => some (.wrap (some a) cause)
  | some (.wrap none cause) => checkSFE cause
  | some (.join _ _) => none
  | some (.ext _ _) => none

/-- serr.go `nextStackFrameError`: unwrap once, then search via `checkSFE`.
A `join` has no single-cause `Unwrap`, so the search fails immediately. -/
def nextSFE : Option Err → Option Err
  | none => none
  | some (.root _ _ cause) => checkSFE cause
  | some (.wrap _ cause) => checkSFE cause
  | some (.join _ _) => none
  | some (.ext _ cause) => checkSFE cause

/-- The delta-record cursor initialisation in `unpack` (format.go lines
87-94): if the input itself carries a non-nil record start there, if it is a
record carrier with a nil record search onward, otherwise leave the cursor
empty (note: no onward search for `join`/foreign/nil inputs). -/
def initialSFE : Option Err → Option Err
  | some (.root cs (some a) cause) => some (.root cs (some a) cause)
  | some (.root cs none cause) => nextSFE (some (.root cs none cause))
  | some (.wrap (some a) cause) => some (.wrap (some a) cause)
  | some (.wrap none cause) => nextSFE (some (.wrap none cause))
  | _ => none

/-- The `GetAdditionalInformation` read on the cursor. The cursor produced by
`initialSFE`/`nextSFE` always carries a record, so the default is never
observed (in Go a nil record here would be a nil-pointer dereference, which
the cursor invariant rules out). -/
def infoOf : Err → AdditionalInformation
  | .root _ (some a) _ => a
  | .wrap (some a) _ => a
  | _ => ⟨0, 0, [], "", []⟩

theorem checkSFE_sizeOf : ∀ (o : Option Err) (a : Err), checkSFE o = some a → sizeOf a < sizeOf o
  | none, a, h => by simp [checkSFE] at h
  | some (.root cs (some i) cause), a, h => by
    simp only [checkSFE] at h
    cases h; simp
  | some (.root cs none cause), a, h => by
    simp only [checkSFE] at h
    have := checkSFE_sizeOf cause a h
    simp; omega
  | some (.wrap (some i) cause), a, h => by
    simp only [checkSFE] at h
    cases h; simp
  | some (.wrap none cause), a, h => by
    simp only [checkSFE] at h
    have := checkSFE_sizeOf cause a h
    simp; omega
  | some (.join cs causes), a, h => by simp [checkSFE] at h
  | some (.ext n cause), a, h => by simp [checkSFE] at h

theorem nextSFE_sizeOf : ∀ (e a : Err), nextSFE (some e) = some a → sizeOf a < sizeOf e
  | .root cs i cause, a, h => by
    simp only [nextSFE] at h
    have := checkSFE_sizeOf cause a h
    simp; omega
  | .wrap i cause, a, h => by
    simp only [nextSFE] at h
    have := checkSFE_sizeOf cause a h
    simp; omega
  | .join cs causes, a, h => by simp [nextSFE] at h
  | .ext n cause, a, h => by
    simp only [nextSFE] at h
    have := checkSFE_sizeOf cause a h
    simp; omega

theorem Err_sizeOf_pos (e : Err) : 0 < sizeOf e := by
  cases e <;> simp_arith

theorem List_Err_sizeOf_pos (l : List Err) : 0 < sizeOf l := by
  cases l <;> simp_arith

theorem nextSFE_sizeOf_lt (c : Err) : sizeOf (nextSFE (some c)) < sizeOf (some c) := by
  cases hn : nextSFE (some c) with
  | none =>
    have := Err_sizeOf_pos c
    simpa using this
  | some a =>
    have := nextSFE_sizeOf c a hn
    simp; omega

theorem Cause_sizeOf : ∀ (o : Option Err) (a : Err), Cause o = some a → sizeOf a < sizeOf o
  | none, a, h => by simp [Cause] at h
  | some (.root cs info cause), a, h => by
    by_cases hcs : cs.isEmpty
    · simp only [Cause, if_pos hcs] at h
      have := Cause_sizeOf cause a h
      simp; omega
    · simp only [Cause, if_neg hcs] at h
      cases h; simp
  | some (.wrap i cause), a, h => by
    simp only [Cause] at h
    have := Cause_sizeOf cause a h
    simp; omega
  | some (.join cs causes), a, h => by
    by_cases hcs : cs.isEmpty
    · simp only [Cause, if_pos hcs] at h
      cases h
    · simp only [Cause, if_neg hcs] at h
      cases h; simp
  | some (.ext n cause), a, h => by
    simp only [Cause] at h
    have := Cause_sizeOf cause a h
    simp; omega

/-- Any value returned by `Cause` is a `root` or `join` owning a non-empty
full capture. -/
theorem Cause_isAnchor : ∀ (o : Option Err) (a : Err), Cause o = some a →
    isAnchor a = true ∧ Callers a ≠ []
  | none, a, h => by simp [Cause] at h
  | some (.root cs info cause), a, h => by
    by_cases hcs : cs.isEmpty
    · simp only [Cause, if_pos hcs] at h
      exact Cause_isAnchor cause a h
    · simp only [Cause, if_neg hcs] at h
      cases h
      exact ⟨rfl, by simpa [Callers, List.isEmpty_iff] using hcs⟩
  | some (.wrap i cause), a, h => by
    simp only [Cause] at h
    exact Cause_isAnchor cause a h
  | some (.join cs causes), a, h => by
    by_cases hcs : cs.isEmpty
    · simp only [Cause, if_pos hcs] at h
      cases h
    · simp only [Cause, if_neg hcs] at h
      cases h
      exact ⟨rfl, by simpa [Callers, List.isEmpty_iff] using hcs⟩
  | some (.ext n cause), a, h => by
    simp only [Cause] at h
    exact Cause_isAnchor cause a h

/-- format.go `WrapLink`: one rendered link. -/
structure WrapLink where
  Msg : String
  MsgArgs : List String
  Fields : List (String × String)
  CallerLocation : Location
deriving Repr, DecidableEq

/-- format.go `UnpackHierarchy`. `ErrExternal` is an `Option Err` because the
Go field is a nilable `error` value. -/
structure UnpackHierarchy where
  ErrExternal : Option Err
  CallerLocations : List Location
  Links : List WrapLink
  SubHierarchies : List UnpackHierarchy
deriving Repr

/-- format.go `getLocation`: a zero pc resolves to the empty frame; any other
pc is resolved by the ambient runtime resolver `res`. -/
def getLocation (res : Nat → Location) (pc : Nat) : Location :=
  if pc = 0 then ⟨"", 0, ""⟩ else res pc

/-- format.go `UnpackHierarchy.addCallerLocation`: append a resolved frame,
collapsing an immediate repeat of the last entry. -/
def addCallerLocation (locs : List Location) (l : Location) : List Location :=
  if locs.getLast? = some l then locs else locs ++ [l]

/-- The `for callerStartIndex >= 0` scan of format.go lines 78-85, counting
the Go index `callerStartIndex` as `k - 1`: scan from the deepest frame
toward index 0 for the floor pc, stopping just past the first hit; with no
hit the index runs past 0 to `-1`. -/
def scanStart (callers : List Nat) (parentPC : Nat) : Nat → Int
  | 0 => -1
  | k + 1 => if callers.getD k 0 = parentPC then (k : Int) - 1 else scanStart callers parentPC k

/-- The start-index computation of format.go lines 76-85. -/
def callerStartIndex (callers : List Nat) (parentPC : Nat) : Int :=
  if parentPC = 0 then (callers.length : Int) - 1
  else scanStart callers parentPC callers.length

/-- The inner `for` of format.go lines 98-112: while the cursor's delta
record was created just above the next frame to be emitted (its
`callerCaller` equals `callers[callerIndex+1]`, passed here as `nextPC`),
emit its location (and, when it carries a payload, a link), then advance the
cursor. The `callerIndex != len(callers)-1` conjunct is checked by the
caller (`walkFrames`), where `callerIndex` is fixed. -/
def consumeLinks (res : Nat → Location) (nextPC : Nat) :
    Option Err → List Location → List WrapLink → List Location × List WrapLink × Option Err
  | none, locs, links => (locs, links, none)
  | some c, locs, links =>
    let d := infoOf c
    if d.callerCaller = nextPC then
      let loc := getLocation res d.caller
      let links1 :=
        if d.msg ≠ "" ∨ d.msgArgs ≠ [] ∨ d.fields ≠ [] then
          links ++ [⟨d.msg, d.msgArgs, d.fields, loc⟩]
        else links
      consumeLinks res nextPC (nextSFE (some c)) (addCallerLocation locs loc) links1
    else (locs, links, some c)
termination_by o _ _ => sizeOf o
decreasing_by
  exact nextSFE_sizeOf_lt c

/-- The outer frame walk of format.go lines 97-115, from
`callerIndex = n - 1` down to 0 (so `n = callerStartIndex + 1`; a negative
start index gives `n = 0` and an empty walk). -/
def walkFrames (res : Nat → Location) (callers : List Nat) :
    Nat → Option Err → List Location → List WrapLink → List Location × List WrapLink
  | 0, _, locs, links => (locs, links)
  | i + 1, cursor, locs, links =>
    let step :=
      if i ≠ callers.length - 1 then
        consumeLinks res (callers.getD (i + 1) 0) cursor locs links
      else (locs, links, cursor)
    walkFrames res callers i step.2.2
      (addCallerLocation step.1 (getLocation res (callers.getD i 0))) step.2.1

/-- The single-child collapse of format.go lines 125-131. -/
def flatten (h : UnpackHierarchy) : UnpackHierarchy :=
  match h.SubHierarchies with
  | [s] => ⟨s.ErrExternal, h.CallerLocations ++ s.CallerLocations,
      h.Links ++ s.Links, s.SubHierarchies⟩
  | _ => h

mutual

/-- format.go `unpack`. `none` models the Go panic: when the anchor's full
capture holds fewer than two entries and the anchor has causes to recurse
into, `callers[1]` (format.go lines 118 and 121) is out of range. -/
def unpack (res : Nat → Location) (err : Option Err) (parentPC : Nat) : Option UnpackHierarchy :=
  match hC : Cause err with
  | none => some ⟨err, [], [], []⟩
  | some (.root cs info cause) =>
    let start := callerStartIndex cs parentPC
    let fl := walkFrames res cs (start + 1).toNat (initialSFE err) [] []
    (match cs.get? 1 with
     | none => none
     | some pc1 =>
       match unpack res cause pc1 with
       | none => none
       | some sub => some (flatten ⟨none, fl.1, fl.2, [sub]⟩))
  | some (.join cs []) =>
    let start := callerStartIndex cs parentPC
    let fl := walkFrames res cs (start + 1).toNat (initialSFE err) [] []
    some ⟨none, fl.1, fl.2, []⟩
  | some (.join cs (c0 :: crest)) =>
    let start := callerStartIndex cs parentPC
    let fl := walkFrames res cs (start + 1).toNat (initialSFE err) [] []
    (match cs.get? 1 with
     | none => none
     | some pc1 =>
       match unpackList res (c0 :: crest) pc1 with
       | none => none
       | some subs => some (flatten ⟨none, fl.1, fl.2, subs⟩))
  | some (.wrap _ _) => none
  | some (.ext _ _) => none
termination_by sizeOf err
decreasing_by
  · have := Cause_sizeOf err _ hC; simp at this ⊢; omega
  · have := Cause_sizeOf err _ hC; simp at this ⊢; omega

/-- The per-cause recursion of format.go lines 119-123 (the `Unwrap []error`
branch), in slice order. -/
def unpackList (res : Nat → Location) (errs : List Err) (pc : Nat) : Option (List UnpackHierarchy) :=
  match errs with
  | [] => some []
  | e :: es =>
    match unpack res (some e) pc with
    | none => none
    | some h =>
      match unpackList res es pc with
      | none => none
      | some hs => some (h :: hs)
termination_by sizeOf errs
decreasing_by
  · have := List_Err_sizeOf_pos es; simp; omega
  · simp

end

/-- format.go `Unpack`: the public entry point, reconstructing with no
inherited floor (`parentPC = 0`). -/
def Unpack (res : Nat → Location) (err : Option Err) : Option UnpackHierarchy :=
  unpack res err 0

/-! ## The construction surface (serr.go)

Each constructor that captures the ambient stack receives that capture as an
explicit argument: `fresh` for a `NewCallers` full capture, `pcs2` for the
two-entry `NewAdditionalInformation` capture. -/

/-- serr.go `NewAdditionalInformationFromCallers`: derive the two delta
positions from an existing full capture (missing entries stay 0). -/
def NewAdditionalInformationFromCallers (callers : List Nat) : AdditionalInformation :=
  ⟨callers.getD 0 0, callers.getD 1 0, [], "", []⟩

/-- serr.go `NewAdditionalInformation`: same, from a fresh two-entry ambient
capture `pcs2`. -/
def NewAdditionalInformation (pcs2 : List Nat) : AdditionalInformation :=
  ⟨pcs2.getD 0 0, pcs2.getD 1 0, [], "", []⟩

/-- serr.go `ErrorDepths` (reached by `New`/`Errorf`/`Errors`/`ErrorDepth`/
`ErrorDepthf`): a fresh `rootError` with the ambient capture `fresh`, a delta
record derived from it carrying the payload, and no cause. -/
def ErrorDepths (fresh : List Nat) (fields : List (String × String)) (msg : String)
    (args : List String) : Err :=
  .root fresh
    (some { NewAdditionalInformationFromCallers fresh with
            fields := fields, msg := msg, msgArgs := args })
    none

/-- serr.go `WrapDepth` (reached by `Wrap`): with an anchored cause, a
`wrapError` carrying only the two fresh delta positions `pcs2`; otherwise a
`rootError` with the fresh full capture `fresh`, **no** delta record, and the
given cause (which may be nil). -/
def WrapDepth (pcs2 fresh : List Nat) (err : Option Err) : Err :=
  if (Cause err).isSome then
    .wrap (some (NewAdditionalInformation pcs2)) err
  else
    .root fresh none err

/-- serr.go `WrapDepths` (reached by `Wrapf`/`Wraps`/`WrapDepthf`): like
`WrapDepth` but the delta record carries the payload; on the rootward path
the record is derived from the fresh full capture. -/
def WrapDepths (pcs2 fresh : List Nat) (err : Option Err) (fields : List (String × String))
    (msg : String) (args : List String) : Err :=
  if (Cause err).isSome then
    .wrap (some { NewAdditionalInformation pcs2 with
                  fields := fields, msg := msg, msgArgs := args }) err
  else
    .root fresh
      (some { NewAdditionalInformationFromCallers fresh with
              fields := fields, msg := msg, msgArgs := args })
      err

/-- serr.go `JoinDepth` (reached by `Join`): count the non-nil arguments;
zero gives nil, one gives a fresh `rootError` wrapping it (capture `fresh`,
no record), otherwise if the **first positional** argument is a `joinError`
append the remaining non-nil arguments to its cause slice (keeping its
capture), else build a fresh `joinError` from the non-nil arguments in
order. `none` for the empty-argument `errs[0]` panic corner is unreachable
(it requires two live arguments). -/
def JoinDepth (fresh : List Nat) (errs : List (Option Err)) : Option Err :=
  let n := (errs.filter Option.isSome).length
  if n = 0 then none
  else if n = 1 then some (.root fresh none (errs.findSome? id))
  else
    match errs with
    | some (.join cs es) :: rest => some (.join cs (es ++ rest.filterMap id))
    | _ :: _ => some (.join fresh (errs.filterMap id))
    | [] => none

/-- A concrete resolver for witnesses: pc `n` resolves to file `"f"`, line
`n`, function `"fn"`. -/
def res0 : Nat → Location := fun pc => ⟨"f", pc, "fn"⟩

example : Cause (some (ErrorDepths [1, 2] [] "x" [])) = some (ErrorDepths [1, 2] [] "x" []) := by
  simp [ErrorDepths, Cause, NewAdditionalInformationFromCallers]

/-! Unfolding equations for the well-founded `unpack`/`unpackList`, one per
anchor shape, used to evaluate the reconstructor in proofs. -/

theorem unpack_noAnchorEq (res : Nat → Location) (err : Option Err) (pc : Nat)
    (h : Cause err = none) : unpack res err pc = some ⟨err, [], [], []⟩ := by
  rw [unpack.eq_def]
  split
  · rfl
  all_goals (rename_i heq; rw [h] at heq; cases heq)

theorem unpack_rootEq (res : Nat → Location) (err : Option Err) (pc : Nat)
    (cs : List Nat) (info : Option AdditionalInformation) (cause : Option Err)
    (h : Cause err = some (.root cs info cause)) :
    unpack res err pc =
      (match cs.get? 1 with
       | none => none
       | some pc1 =>
         match unpack res cause pc1 with
         | none => none
         | some sub => some (flatten ⟨none,
             (walkFrames res cs (callerStartIndex cs pc + 1).toNat (initialSFE err) [] []).1,
             (walkFrames res cs (callerStartIndex cs pc + 1).toNat (initialSFE err) [] []).2,
             [sub]⟩)) := by
  rw [unpack.eq_def]
  split
  · rename_i heq; rw [h] at heq; cases heq
  case _ cs' info' cause' heq =>
    rw [h] at heq
    simp only [Option.some.injEq, Err.root.injEq] at heq
    obtain ⟨h1, h2, h3⟩ := heq
    subst h1; subst h2; subst h3
    rfl
  all_goals (rename_i heq; rw [h] at heq; cases heq)

theorem unpack_joinNilEq (res : Nat → Location) (err : Option Err) (pc : Nat)
    (cs : List Nat) (h : Cause err = some (.join cs [])) :
    unpack res err pc =
      some ⟨none,
        (walkFrames res cs (callerStartIndex cs pc + 1).toNat (initialSFE err) [] []).1,
        (walkFrames res cs (callerStartIndex cs pc + 1).toNat (initialSFE err) [] []).2,
        []⟩ := by
  rw [unpack.eq_def]
  split
  · rename_i heq; rw [h] at heq; cases heq
  · rename_i heq; rw [h] at heq; cases heq
  case _ cs' heq =>
    rw [h] at heq
    simp only [Option.some.injEq, Err.join.injEq] at heq
    obtain ⟨h1, h2⟩ := heq
    subst h1
    rfl
  all_goals (rename_i heq; rw [h] at heq; cases heq)

theorem unpack_joinConsEq (res : Nat → Location) (err : Option Err) (pc : Nat)
    (cs : List Nat) (c0 : Err) (crest : List Err)
    (h : Cause err = some (.join cs (c0 :: crest))) :
    unpack res err pc =
      (match cs.get? 1 with
       | none => none
       | some pc1 =>
         match unpackList res (c0 :: crest) pc1 with
         | none => none
         | some subs => some (flatten ⟨none,
             (walkFrames res cs (callerStartIndex cs pc + 1).toNat (initialSFE err) [] []).1,
             (walkFrames res cs (callerStartIndex cs pc + 1).toNat (initialSFE err) [] []).2,
             subs⟩)) := by
  rw [unpack.eq_def]
  split
  · rename_i heq; rw [h] at heq; cases heq
  · rename_i heq; rw [h] at heq; cases heq
  · rename_i heq; rw [h] at heq; simp at heq
  case _ cs' c0' crest' heq =>
    rw [h] at heq
    simp only [Option.some.injEq, Err.join.injEq, List.cons.injEq] at heq
    obtain ⟨h1, h2, h3⟩ := heq
    subst h1; subst h2; subst h3
    rfl
  all_goals (rename_i heq; rw [h] at heq; cases heq)

theorem unpackList_nilEq (res : Nat → Location) (pc : Nat) :
    unpackList res [] pc = some [] := by
  rw [unpackList.eq_def]

theorem unpackList_consEq (res : Nat → Location) (e : Err) (es : List Err) (pc : Nat) :
    unpackList res (e :: es) pc =
      (match unpack res (some e) pc with
       | none => none
       | some h =>
         match unpackList res es pc with
         | none => none
         | some hs => some (h :: hs)) := by
  rw [unpackList.eq_def]

/-! ## Claims -/

/-- C1 (code bug): the claim says `unpack` terminates normally on every
input, including an anchor whose full capture holds only one entry. It does
not: for `&rootError{callers: []uintptr{5}}` the anchor search succeeds
(first conjunct), the frame walk finishes, and then the unconditional
recursion `unpack(uerr.Unwrap(), callers[1])` at format.go line 118 indexes
`callers[1]` in a one-entry slice — an out-of-range panic, modelled by the
`none` result (second conjunct). -/
theorem unpack_panics_on_singleton_capture :
    Cause (some (Err.root [5] none none)) = some (Err.root [5] none none) ∧
      unpack res0 (some (Err.root [5] none none)) 0 = none := by
  constructor
  · simp [Cause]
  · simp [unpack_rootEq res0 (some (Err.root [5] none none)) 0 [5] none none (by simp [Cause])]

/-- C2 (counterexample): the claim says wrapping a nil cause fails with a
usage error and never silently returns an error wrapping nothing. In fact
`WrapDepth(skip, nil)`/`WrapDepths(skip, nil, ...)` take the no-anchor path
(`Cause(nil) == nil`) and silently return a fresh `rootError` whose wrapped
cause is nothing — shown here at the concrete ambient captures
`pcs2 = [1,2]`, `fresh = [10,20]`. -/
theorem wrap_nil_counterexample :
    WrapDepth [1, 2] [10, 20] none = Err.root [10, 20] none none ∧
      WrapDepths [1, 2] [10, 20] none [] "m" [] =
        Err.root [10, 20] (some ⟨10, 20, [], "m", []⟩) none := by
  constructor
  · simp [WrapDepth, Cause]
  · simp [WrapDepths, Cause, NewAdditionalInformationFromCallers]

/-- C2 (amended): for every ambient capture and payload, wrapping a nil
cause signals nothing: `WrapDepth` silently returns a fresh root with no
delta record and no cause, and `WrapDepths` one carrying the payload, with
no cause. -/
theorem wrap_nil_amended (pcs2 fresh : List Nat) (fields : List (String × String))
    (msg : String) (args : List String) :
    WrapDepth pcs2 fresh none = Err.root fresh none none ∧
      WrapDepths pcs2 fresh none fields msg args =
        Err.root fresh
          (some { NewAdditionalInformationFromCallers fresh with
                  fields := fields, msg := msg, msgArgs := args }) none := by
  constructor
  · simp [WrapDepth, Cause]
  · simp [WrapDepths, Cause]

/-- C8: when the anchor search finds nothing (a foreign error with no full
capture anywhere in its chain, or nil), `unpack` returns a leaf hierarchy
whose `ErrExternal` is the input verbatim and whose frames, links and
sub-hierarchies are all empty. -/
theorem unpack_foreign_leaf (res : Nat → Location) (err : Option Err) (pc : Nat)
    (h : Cause err = none) : unpack res err pc = some ⟨err, [], [], []⟩ :=
  unpack_noAnchorEq res err pc h

/-- C8 witness at the foreign two-link chain `ext "boom" (ext "io" nil)`. -/
theorem unpack_foreign_leaf_witness :
    Cause (some (Err.ext "boom" (some (Err.ext "io" none)))) = none ∧
      unpack res0 (some (Err.ext "boom" (some (Err.ext "io" none)))) 5 =
        some ⟨some (Err.ext "boom" (some (Err.ext "io" none))), [], [], []⟩ :=
  ⟨by simp [Cause], unpack_foreign_leaf res0 _ 5 (by simp [Cause])⟩

example : unpack res0 (some (Err.root [5, 6] none none)) 0 =
    some ⟨none, [⟨"f", 6, "fn"⟩, ⟨"f", 5, "fn"⟩], [], []⟩ := by
  simp [unpack_rootEq res0 (some (Err.root [5, 6] none none)) 0 [5, 6] none none (by simp [Cause]),
    unpack_noAnchorEq res0 none 6 (by simp [Cause]),
    callerStartIndex, walkFrames, initialSFE, consumeLinks, addCallerLocation,
    getLocation, scanStart, nextSFE, checkSFE, flatten, res0]

theorem flatten_single (s : UnpackHierarchy) :
    flatten ⟨none, [], [], [s]⟩ = s := by
  cases s
  simp [flatten]

theorem scanStart_notMem (cs : List Nat) (pc : Nat) (hmem : pc ∉ cs) :
    ∀ k, k ≤ cs.length → scanStart cs pc k = -1 := by
  intro k
  induction k with
  | zero => intro _; simp [scanStart]
  | succ k ih =>
    intro hk
    have hk' : k < cs.length := hk
    have hne : cs.getD k 0 ≠ pc := by
      simp only [List.getD_eq_getElem?_getD, List.getElem?_eq_getElem hk', Option.getD_some]
      exact fun hcontra => hmem (hcontra ▸ List.getElem_mem hk')
    simp only [scanStart]
    rw [if_neg hne]
    exact ih (Nat.le_of_lt hk')

/-- C10: a non-zero floor pc that occurs nowhere in the located anchor's
full capture makes the start-index scan run past index 0 to `-1`, so the
frame walk emits nothing from that capture: the reconstruction of the whole
input collapses to the reconstruction of the anchor's cause (the capture is
silently dropped). Stated for a single-cause anchor with a two-entry-or-more
capture (shorter ones panic, see C1). -/
theorem floor_missing_drops_capture (res : Nat → Location) (err : Option Err) (pc : Nat)
    (cs : List Nat) (info : Option AdditionalInformation) (cause : Option Err)
    (hA : Cause err = some (.root cs info cause))
    (h0 : pc ≠ 0) (hmem : pc ∉ cs) (hlen : 2 ≤ cs.length) :
    callerStartIndex cs pc = -1 ∧
      unpack res err pc = unpack res cause (cs.getD 1 0) := by
  have hstart : callerStartIndex cs pc = -1 := by
    simp only [callerStartIndex, if_neg h0]
    exact scanStart_notMem cs pc hmem cs.length (Nat.le_refl _)
  refine ⟨hstart, ?_⟩
  rw [unpack_rootEq res err pc cs info cause hA]
  have h1 : 1 < cs.length := by omega
  have hget : cs.get? 1 = some (cs.getD 1 0) := by
    simp [List.get?_eq_getElem?, List.getElem?_eq_getElem h1]
  rw [hget, hstart]
  simp only [Int.toNat]
  cases hu : unpack res cause (cs.getD 1 0) with
  | none => simp [walkFrames]
  | some sub => simp [walkFrames, flatten_single]

/-- C10 witness: floor `99` is absent from the anchor capture `[5, 6]`, so
the start index is `-1` and unpacking `root [5,6] _ (some (ext "x" nil))`
at floor 99 is exactly unpacking the foreign cause at the adopted floor 6. -/
theorem floor_missing_drops_capture_witness :
    Cause (some (Err.root [5, 6] none (some (Err.ext "x" none)))) =
        some (Err.root [5, 6] none (some (Err.ext "x" none))) ∧
      callerStartIndex [5, 6] 99 = -1 ∧
      unpack res0 (some (Err.root [5, 6] none (some (Err.ext "x" none)))) 99 =
        unpack res0 (some (Err.ext "x" none)) 6 := by
  refine ⟨by simp [Cause], ?_⟩
  have := floor_missing_drops_capture res0
    (some (Err.root [5, 6] none (some (Err.ext "x" none)))) 99 [5, 6] none
    (some (Err.ext "x" none)) (by simp [Cause]) (by decide) (by decide) (by decide)
  simpa using this

/-- The `errs[0].(*joinError)` test of serr.go line 262: true iff the first
positional argument is a (non-nil) `joinError`. -/
def firstIsJoin : List (Option Err) → Bool
  | some (.join _ _) :: _ => true
  | _ => false

theorem filter_isSome_length (l : List (Option Err)) :
    (l.filter Option.isSome).length = (l.filterMap id).length := by
  induction l with
  | nil => simp
  | cons h t ih => cases h <;> simp [ih]

theorem findSome_eq_head_filterMap (l : List (Option Err)) :
    l.findSome? id = (l.filterMap id).head? := by
  induction l with
  | nil => simp
  | cons h t ih =>
    cases h with
    | none => simp [List.findSome?_cons]
    | some v => simp [List.findSome?_cons]

/-- The `errs[0].(*joinError)` dispatch of serr.go lines 262-280 (statement
helper for the `≥ 2` live case of `JoinDepth`). -/
def joinAppendResult (fresh : List Nat) (errs : List (Option Err)) : Option Err :=
  match errs with
  | some (.join cs es) :: rest => some (.join cs (es ++ rest.filterMap id))
  | _ :: _ => some (.join fresh (errs.filterMap id))
  | [] => none

/-- Reduction of `JoinDepth` with at least two live arguments to the
`errs[0].(*joinError)` dispatch. -/
theorem JoinDepth_ge2 (fresh : List Nat) (errs : List (Option Err))
    (hn : 2 ≤ (errs.filter Option.isSome).length) :
    JoinDepth fresh errs = joinAppendResult fresh errs := by
  simp only [JoinDepth, joinAppendResult]
  rw [if_neg (by omega), if_neg (by omega)]

/-- C3 (counterexample): with `e1 = root [1,2]`, `e2 = root [3,4]`,
`e3 = root [5,6]` and the Join `j = join [9,9] [e1,e2]`, the merge
`JoinDepth fresh [nil, j, e3]` has two live arguments whose first live one
is a Join, yet the code tests only the positional `errs[0]` (which is nil):
it builds a fresh two-branch Join nesting `j`, not the in-place three-branch
append the claim predicts. -/
theorem join_first_live_counterexample :
    JoinDepth [50, 60]
        [none,
         some (Err.join [9, 9] [Err.root [1, 2] none none, Err.root [3, 4] none none]),
         some (Err.root [5, 6] none none)] =
      some (Err.join [50, 60]
        [Err.join [9, 9] [Err.root [1, 2] none none, Err.root [3, 4] none none],
         Err.root [5, 6] none none]) ∧
    Err.join [50, 60]
        [Err.join [9, 9] [Err.root [1, 2] none none, Err.root [3, 4] none none],
         Err.root [5, 6] none none] ≠
      Err.join [9, 9]
        [Err.root [1, 2] none none, Err.root [3, 4] none none,
         Err.root [5, 6] none none] := by
  constructor
  · simp [JoinDepth]
  · intro hcontra
    have := congrArg (fun e => match e with | Err.join cs _ => cs | _ => []) hcontra
    simp at this

/-- C3 (amended, replacing "first live argument" by "first positional
argument"): with at least two live arguments, (1) if `errs[0]` is a Join the
remaining live errors are appended to its cause sequence, keeping its
capture — no new capture is taken; (2) otherwise a fresh Join is built from
the live errors in argument order with the fresh capture; and (3) therefore
`Join(Join(e1,e2), e3)` has the same flat three-branch shape (and even the
same first capture) as the in-place append, whenever `e1` is live and not
itself a Join. -/
theorem join_append_amended (fresh : List Nat) (errs : List (Option Err))
    (hn : 2 ≤ (errs.filter Option.isSome).length) :
    (∀ cs es rest, errs = some (Err.join cs es) :: rest →
      JoinDepth fresh errs = some (Err.join cs (es ++ rest.filterMap id))) ∧
    (firstIsJoin errs = false →
      JoinDepth fresh errs = some (Err.join fresh (errs.filterMap id))) ∧
    (∀ (cap1 : List Nat) (e1 e2 e3 : Err), isJoin e1 = false →
      JoinDepth cap1 [some e1, some e2] = some (Err.join cap1 [e1, e2]) ∧
      JoinDepth fresh [JoinDepth cap1 [some e1, some e2], some e3] =
        some (Err.join cap1 [e1, e2, e3])) := by
  refine ⟨?_, ?_, ?_⟩
  · intro cs es rest herrs
    subst herrs
    rw [JoinDepth_ge2 fresh _ hn]
    rfl
  · intro hfirst
    rw [JoinDepth_ge2 fresh errs hn]
    match errs with
    | [] => simp at hn
    | none :: rest => rfl
    | some e0 :: rest =>
      cases e0 with
      | join cs es => simp [firstIsJoin] at hfirst
      | root cs info cause => rfl
      | wrap info cause => rfl
      | ext n cause => rfl
  · intro cap1 e1 e2 e3 h1
    have hfst : JoinDepth cap1 [some e1, some e2] = some (Err.join cap1 [e1, e2]) := by
      rw [JoinDepth_ge2 cap1 _ (by cases e1 <;> cases e2 <;> simp)]
      cases e1 with
      | join cs es => simp [isJoin] at h1
      | root cs info cause => rfl
      | wrap info cause => rfl
      | ext n cause => rfl
    refine ⟨hfst, ?_⟩
    rw [hfst]
    rw [JoinDepth_ge2 fresh _ (by simp)]
    rfl

/-- C3 amended witness: appending `e3` to the join `join [9] [e1, e2]` in
first position keeps its capture and extends its causes; the same
three-branch shape arises from the nested merge. -/
theorem join_append_amended_witness :
    JoinDepth [50]
        [some (Err.join [9] [Err.root [1, 2] none none, Err.root [3, 4] none none]),
         some (Err.root [5, 6] none none)] =
      some (Err.join [9]
        [Err.root [1, 2] none none, Err.root [3, 4] none none, Err.root [5, 6] none none]) :=
  by
  have := (join_append_amended [50]
    [some (Err.join [9] [Err.root [1, 2] none none, Err.root [3, 4] none none]),
     some (Err.root [5, 6] none none)] (by simp)).1
    [9] [Err.root [1, 2] none none, Err.root [3, 4] none none]
    [some (Err.root [5, 6] none none)] rfl
  simpa using this

/-- C4 (counterexample): the claim says merging exactly one live error is
behaviorally identical to wrapping it alone with an empty payload, anchoring
only if needed. With the already-anchored `e1 = root [7,8]` and the same
ambient stack (`fresh = [30,40]`, so `pcs2 = [30,40]`), the merge
`JoinDepth [30,40] [nil, e1, nil]` builds a fresh Root over `e1` (conjunct
1) while `WrapDepth [30,40] ... e1` builds a lightweight Wrap (conjunct 2),
and their reconstructions differ observably: the merge renders the fresh
capture's frames, the wrap renders `e1`'s (conjunct 3). -/
theorem merge_single_not_wrap_counterexample :
    JoinDepth [30, 40] [none, some (Err.root [7, 8] none none), none] =
        some (Err.root [30, 40] none (some (Err.root [7, 8] none none))) ∧
      WrapDepth [30, 40] [30, 40] (some (Err.root [7, 8] none none)) =
        Err.wrap (some ⟨30, 40, [], "", []⟩) (some (Err.root [7, 8] none none)) ∧
      (unpack res0 (some (Err.root [30, 40] none (some (Err.root [7, 8] none none)))) 0).map
          UnpackHierarchy.CallerLocations ≠
        (unpack res0 (some (Err.wrap (some ⟨30, 40, [], "", []⟩)
            (some (Err.root [7, 8] none none)))) 0).map
          UnpackHierarchy.CallerLocations := by
  refine ⟨by simp [JoinDepth], by simp [WrapDepth, Cause, NewAdditionalInformation], ?_⟩
  have hm : unpack res0 (some (Err.root [30, 40] none (some (Err.root [7, 8] none none)))) 0 =
      some ⟨none, [⟨"f", 40, "fn"⟩, ⟨"f", 30, "fn"⟩], [], []⟩ := by
    simp [unpack_rootEq res0 (some (Err.root [30, 40] none (some (Err.root [7, 8] none none))))
        0 [30, 40] none (some (Err.root [7, 8] none none)) (by simp [Cause]),
      unpack_rootEq res0 (some (Err.root [7, 8] none none)) 40 [7, 8] none none
        (by simp [Cause]),
      unpack_noAnchorEq res0 none 8 (by simp [Cause]),
      callerStartIndex, walkFrames, initialSFE, consumeLinks, addCallerLocation,
      getLocation, scanStart, nextSFE, checkSFE, flatten, res0]
  have hw : unpack res0 (some (Err.wrap (some ⟨30, 40, [], "", []⟩)
      (some (Err.root [7, 8] none none)))) 0 =
      some ⟨none, [⟨"f", 8, "fn"⟩, ⟨"f", 7, "fn"⟩], [], []⟩ := by
    simp [unpack_rootEq res0 (some (Err.wrap (some ⟨30, 40, [], "", []⟩)
        (some (Err.root [7, 8] none none)))) 0 [7, 8] none none (by simp [Cause]),
      unpack_noAnchorEq res0 none 8 (by simp [Cause]),
      callerStartIndex, walkFrames, initialSFE, consumeLinks, addCallerLocation,
      getLocation, scanStart, nextSFE, checkSFE, flatten, res0, infoOf]
  rw [hm, hw]
  simp

/-- C4 (amended): merging zero live errors returns nil; merging exactly one
live error `e` returns a fresh Root with a new full capture, no delta
record, and `e` as its cause — it always takes a fresh anchor, even when `e`
already has one, so it is not the lightweight Wrap of the claim. -/
theorem merge_degenerate_amended (fresh : List Nat) (errs : List (Option Err)) :
    (errs.filterMap id = [] → JoinDepth fresh errs = none) ∧
    (∀ e, errs.filterMap id = [e] →
      JoinDepth fresh errs = some (Err.root fresh none (some e))) := by
  constructor
  · intro h0
    have : (errs.filter Option.isSome).length = 0 := by
      rw [filter_isSome_length, h0]
      rfl
    simp [JoinDepth, this]
  · intro e h1
    have hlen : (errs.filter Option.isSome).length = 1 := by
      rw [filter_isSome_length, h1]
      rfl
    have hfind : errs.findSome? id = some e := by
      rw [findSome_eq_head_filterMap, h1]
      rfl
    simp [JoinDepth, hlen, hfind]

/-- C4 amended witness at `errs = [nil, root [7,8], nil]`, `fresh = [30,40]`
(one live error) and at `errs = [nil, nil]` (zero live errors). -/
theorem merge_degenerate_amended_witness :
    JoinDepth [30, 40] [none, none] = none ∧
      JoinDepth [30, 40] [none, some (Err.root [7, 8] none none), none] =
        some (Err.root [30, 40] none (some (Err.root [7, 8] none none))) :=
  ⟨(merge_degenerate_amended [30, 40] [none, none]).1 (by simp),
   (merge_degenerate_amended [30, 40] [none, some (Err.root [7, 8] none none), none]).2
     (Err.root [7, 8] none none) (by simp)⟩

/-- The values producible by the public construction surface in a real
execution. Each constructor call records the capture the runtime produced;
a capture taken by `runtime.Callers` at a reached call site contains at
least the capturing frame, hence the `≠ []` side conditions on fresh full
captures. Wrapped causes are arbitrary (they may be foreign or nil — the
surface accepts any `error`); the only structured premise is the one a
caller can only establish through the surface itself: a first-position Join
argument was obtained from the surface, so its capture is non-empty. -/
inductive Built : Err → Prop where
  | ofNew : ∀ (fresh : List Nat) (fields : List (String × String)) (msg : String)
      (args : List String), fresh ≠ [] → Built (ErrorDepths fresh fields msg args)
  | ofWrap : ∀ (pcs2 fresh : List Nat) (err : Option Err),
      fresh ≠ [] → Built (WrapDepth pcs2 fresh err)
  | ofWraps : ∀ (pcs2 fresh : List Nat) (err : Option Err)
      (fields : List (String × String)) (msg : String) (args : List String),
      fresh ≠ [] → Built (WrapDepths pcs2 fresh err fields msg args)
  | ofJoin : ∀ (fresh : List Nat) (errs : List (Option Err)) (e : Err),
      fresh ≠ [] →
      (∀ cs es rest, errs = some (Err.join cs es) :: rest → cs ≠ []) →
      JoinDepth fresh errs = some e → Built e

/-- C5: every non-nil error built through the construction surface has an
anchor: `Cause` succeeds on it and returns a Root or Join owning a non-empty
full capture. -/
theorem built_anchor_exists (e : Err) (hb : Built e) :
    ∃ a, Cause (some e) = some a ∧ isAnchor a = true ∧ Callers a ≠ [] := by
  have hsome : (Cause (some e)).isSome = true := by
    cases hb with
    | ofNew fresh fields msg args hne =>
      simp [ErrorDepths, Cause, List.isEmpty_iff, hne]
    | ofWrap pcs2 fresh err hne =>
      by_cases hc : (Cause err).isSome
      · obtain ⟨a, ha⟩ := Option.isSome_iff_exists.mp hc
        simp [WrapDepth, hc, Cause, ha]
      · simp [WrapDepth, hc, Cause, List.isEmpty_iff, hne]
    | ofWraps pcs2 fresh err fields msg args hne =>
      by_cases hc : (Cause err).isSome
      · obtain ⟨a, ha⟩ := Option.isSome_iff_exists.mp hc
        simp [WrapDepths, hc, Cause, ha]
      · simp [WrapDepths, hc, Cause, List.isEmpty_iff, hne]
    | ofJoin fresh errs e' hne hjoin hres =>
      by_cases h0 : (errs.filter Option.isSome).length = 0
      · simp [JoinDepth, h0] at hres
      by_cases h1 : (errs.filter Option.isSome).length = 1
      · simp only [JoinDepth, h0, if_false, h1, if_true] at hres
        cases hres
        simp [Cause, List.isEmpty_iff, hne]
      · rw [JoinDepth_ge2 fresh errs (by omega)] at hres
        match herrs : errs with
        | [] => simp [joinAppendResult] at hres
        | none :: rest =>
          simp only [joinAppendResult] at hres
          cases hres
          simp [Cause, List.isEmpty_iff, hne]
        | some e0 :: rest =>
          cases e0 with
          | join cs es =>
            simp only [joinAppendResult] at hres
            cases hres
            have hcs : cs ≠ [] := hjoin cs es rest rfl
            simp [Cause, List.isEmpty_iff, hcs]
          | root cs info cause =>
            simp only [joinAppendResult] at hres
            cases hres
            simp [Cause, List.isEmpty_iff, hne]
          | wrap info cause =>
            simp only [joinAppendResult] at hres
            cases hres
            simp [Cause, List.isEmpty_iff, hne]
          | ext n cause =>
            simp only [joinAppendResult] at hres
            cases hres
            simp [Cause, List.isEmpty_iff, hne]
  obtain ⟨a, ha⟩ := Option.isSome_iff_exists.mp hsome
  obtain ⟨h1, h2⟩ := Cause_isAnchor (some e) a ha
  exact ⟨a, ha, h1, h2⟩

/-- C7: merging three errors, none itself a Join, builds a fresh Join whose
reconstruction is exactly one hierarchy node with the three child
hierarchies in argument order, each child reconstructed with the Join's
second capture entry as its floor (the hypotheses `hu1`-`hu3` name those
child reconstructions at that floor). -/
theorem join_branching (res : Nat → Location) (fresh : List Nat) (e1 e2 e3 : Err)
    (h1 : isJoin e1 = false) (h2 : isJoin e2 = false) (h3 : isJoin e3 = false)
    (hlen : 2 ≤ fresh.length)
    (u1 u2 u3 : UnpackHierarchy)
    (hu1 : unpack res (some e1) (fresh.getD 1 0) = some u1)
    (hu2 : unpack res (some e2) (fresh.getD 1 0) = some u2)
    (hu3 : unpack res (some e3) (fresh.getD 1 0) = some u3) :
    JoinDepth fresh [some e1, some e2, some e3] =
        some (Err.join fresh [e1, e2, e3]) ∧
      (unpack res (some (Err.join fresh [e1, e2, e3])) 0).map
          UnpackHierarchy.SubHierarchies = some [u1, u2, u3] := by
  have hjd : JoinDepth fresh [some e1, some e2, some e3] =
      some (Err.join fresh [e1, e2, e3]) := by
    rw [JoinDepth_ge2 fresh _ (by simp)]
    cases e1 with
    | join cs es => simp [isJoin] at h1
    | root cs info cause => rfl
    | wrap info cause => rfl
    | ext n cause => rfl
  refine ⟨hjd, ?_⟩
  have h006 : fresh ≠ [] := by
    intro hcontra
    rw [hcontra] at hlen
    simp at hlen
  rw [unpack_joinConsEq res _ 0 fresh e1 [e2, e3]
    (by simp [Cause, List.isEmpty_iff, h006])]
  have hget : fresh.get? 1 = some (fresh.getD 1 0) := by
    simp [List.get?_eq_getElem?, List.getElem?_eq_getElem (show 1 < fresh.length by omega)]
  rw [hget]
  have hul : unpackList res [e1, e2, e3] (fresh.getD 1 0) = some [u1, u2, u3] := by
    rw [unpackList_consEq, hu1, unpackList_consEq, hu2, unpackList_consEq, hu3,
      unpackList_nilEq]
  simp only [List.getD_eq_getElem?_getD] at hul
  simp [hul, flatten]

/-- C7 witness: `Join(root [1,2,40], root [3,4,40], ext "x")` with fresh
capture `[30, 40]`; the three children reconstruct at floor 40 (which the
two root children share as their outermost frame). -/
theorem join_branching_witness :
    JoinDepth [30, 40]
        [some (Err.root [1, 2, 40] none none), some (Err.root [3, 4, 40] none none),
         some (Err.ext "x" none)] =
      some (Err.join [30, 40]
        [Err.root [1, 2, 40] none none, Err.root [3, 4, 40] none none, Err.ext "x" none]) ∧
    (unpack res0 (some (Err.join [30, 40]
        [Err.root [1, 2, 40] none none, Err.root [3, 4, 40] none none,
         Err.ext "x" none])) 0).map
        UnpackHierarchy.SubHierarchies =
      some [⟨none, [⟨"f", 2, "fn"⟩, ⟨"f", 1, "fn"⟩], [], []⟩,
            ⟨none, [⟨"f", 4, "fn"⟩, ⟨"f", 3, "fn"⟩], [], []⟩,
            ⟨some (Err.ext "x" none), [], [], []⟩] := by
  have hu1 : unpack res0 (some (Err.root [1, 2, 40] none none)) ([30, 40].getD 1 0) =
      some ⟨none, [⟨"f", 2, "fn"⟩, ⟨"f", 1, "fn"⟩], [], []⟩ := by
    simp [unpack_rootEq res0 (some (Err.root [1, 2, 40] none none)) 40 [1, 2, 40] none none
        (by simp [Cause]),
      unpack_noAnchorEq res0 none 2 (by simp [Cause]),
      callerStartIndex, walkFrames, initialSFE, consumeLinks, addCallerLocation,
      getLocation, scanStart, nextSFE, checkSFE, flatten, res0]
  have hu2 : unpack res0 (some (Err.root [3, 4, 40] none none)) ([30, 40].getD 1 0) =
      some ⟨none, [⟨"f", 4, "fn"⟩, ⟨"f", 3, "fn"⟩], [], []⟩ := by
    simp [unpack_rootEq res0 (some (Err.root [3, 4, 40] none none)) 40 [3, 4, 40] none none
        (by simp [Cause]),
      unpack_noAnchorEq res0 none 4 (by simp [Cause]),
      callerStartIndex, walkFrames, initialSFE, consumeLinks, addCallerLocation,
      getLocation, scanStart, nextSFE, checkSFE, flatten, res0]
  have hu3 : unpack res0 (some (Err.ext "x" none)) ([30, 40].getD 1 0) =
      some ⟨some (Err.ext "x" none), [], [], []⟩ :=
    unpack_noAnchorEq res0 _ _ (by simp [Cause])
  exact join_branching res0 [30, 40] (Err.root [1, 2, 40] none none)
    (Err.root [3, 4, 40] none none)
    (Err.ext "x" none) (by simp [isJoin]) (by simp [isJoin]) (by simp [isJoin])
    (by simp) _ _ _ hu1 hu2 hu3

/-! ### C6: flattening of a pure wrap chain

The scenario of the claim: a Root created in a function `f1` that is called
through `f2, …, f(N+1)`; the error propagates back up and is wrapped once in
each `f(k+1)`. The Root's capture is `p1 :: q 1 :: … :: q N :: [m]` (its own
frame, the call sites of the propagating functions, one frame above). The
`k`-th wrap (1 = innermost) records its own call site `(d k).caller` and its
caller's call site `(d k).callerCaller`, which in this execution equals the
next capture entry (`q (k+1)`, or `m` for the outermost wrap). -/

/-- A chain of `k` wrap layers over `base`; layer `i` (1 = innermost)
carries delta record `d i`. -/
def chainN (d : Nat → AdditionalInformation) (base : Err) : Nat → Err
  | 0 => base
  | k + 1 => .wrap (some (d (k + 1))) (some (chainN d base k))

/-- The delta cursor the frame walk holds when it reaches capture index `k`:
the sub-chain from layer `k` down (the records above have been consumed),
exhausted at index 0. -/
def cursorAt (d : Nat → AdditionalInformation) (base : Err) : Nat → Option Err
  | 0 => none
  | k + 1 => some (chainN d base (k + 1))

/-- The link emitted for delta record `a`. -/
def mkLink (res : Nat → Location) (a : AdditionalInformation) : WrapLink :=
  ⟨a.msg, a.msgArgs, a.fields, getLocation res a.caller⟩

/-- The Root capture of the chain scenario. -/
def chainCapture (p1 m : Nat) (q : Nat → Nat) (N : Nat) : List Nat :=
  p1 :: (List.range N).map (fun i => q (i + 1)) ++ [m]

theorem chainCapture_length (p1 m : Nat) (q : Nat → Nat) (N : Nat) :
    (chainCapture p1 m q N).length = N + 2 := by
  simp [chainCapture]

theorem chainCapture_getD (p1 m : Nat) (q : Nat → Nat) (N : Nat) :
    ∀ k, k ≤ N →
      (chainCapture p1 m q N).getD (k + 1) 0 = if k = N then m else q (k + 1) := by
  intro k hk
  simp only [chainCapture, List.getD_eq_getElem?_getD, List.getElem?_cons_succ]
  rcases Nat.lt_or_ge k N with hlt | hge
  · rw [List.getElem?_append_left (by simp [hlt])]
    simp [List.getElem?_range hlt, Nat.ne_of_lt hlt]
  · have hkN : k = N := by omega
    subst hkN
    rw [List.getElem?_append_right (by simp)]
    simp

theorem Cause_chainN (d : Nat → AdditionalInformation) (cap : List Nat)
    (hcap : ¬cap.isEmpty = true) :
    ∀ k, Cause (some (chainN d (Err.root cap none none) k)) =
      some (Err.root cap none none)
  | 0 => by simp [chainN, Cause, hcap]
  | k + 1 => by
    simp only [chainN, Cause]
    exact Cause_chainN d cap hcap k

theorem nextSFE_chainN (d : Nat → AdditionalInformation) (cap : List Nat) :
    ∀ k, nextSFE (some (chainN d (Err.root cap none none) (k + 1))) =
      cursorAt d (Err.root cap none none) k := by
  intro k
  cases k with
  | zero => simp [chainN, nextSFE, checkSFE, cursorAt]
  | succ j =>
    show nextSFE (some (.wrap (some (d (j + 2)))
        (some (chainN d (Err.root cap none none) (j + 1))))) = _
    simp only [chainN, nextSFE, checkSFE, cursorAt]

theorem consumeLinks_none (res : Nat → Location) (nextPC : Nat) (locs : List Location)
    (links : List WrapLink) :
    consumeLinks res nextPC none locs links = (locs, links, none) := by
  rw [consumeLinks.eq_def]

theorem consumeLinks_stop (res : Nat → Location) (nextPC : Nat) (c : Err)
    (locs : List Location) (links : List WrapLink)
    (h : (infoOf c).callerCaller ≠ nextPC) :
    consumeLinks res nextPC (some c) locs links = (locs, links, some c) := by
  rw [consumeLinks.eq_def]
  simp [h]

theorem consumeLinks_step (res : Nat → Location) (nextPC : Nat) (c : Err)
    (locs : List Location) (links : List WrapLink)
    (h : (infoOf c).callerCaller = nextPC) (hm : (infoOf c).msg ≠ "") :
    consumeLinks res nextPC (some c) locs links =
      consumeLinks res nextPC (nextSFE (some c))
        (addCallerLocation locs (getLocation res (infoOf c).caller))
        (links ++ [mkLink res (infoOf c)]) := by
  rw [consumeLinks.eq_def]
  simp [h, hm, mkLink]

theorem infoOf_chainN (d : Nat → AdditionalInformation) (base : Err) (k : Nat) :
    infoOf (chainN d base (k + 1)) = d (k + 1) := by
  simp [chainN, infoOf]

/-- One unfolding step of the frame walk (definitional; the `step` triple of
the definition written out). -/
theorem walkFrames_succ (res : Nat → Location) (callers : List Nat) (i : Nat)
    (cursor : Option Err) (locs : List Location) (links : List WrapLink) :
    walkFrames res callers (i + 1) cursor locs links =
      walkFrames res callers i
        (if i ≠ callers.length - 1 then
            consumeLinks res (callers.getD (i + 1) 0) cursor locs links
          else (locs, links, cursor)).2.2
        (addCallerLocation
          (if i ≠ callers.length - 1 then
              consumeLinks res (callers.getD (i + 1) 0) cursor locs links
            else (locs, links, cursor)).1
          (getLocation res (callers.getD i 0)))
        (if i ≠ callers.length - 1 then
            consumeLinks res (callers.getD (i + 1) 0) cursor locs links
          else (locs, links, cursor)).2.1 := rfl

/-- The frame walk over the chain capture consumes exactly one delta record
per boundary, in outer-to-inner order (induction engine for C6). -/
theorem walkFrames_chain (res : Nat → Location) (p1 m : Nat) (q : Nat → Nat)
    (d : Nat → AdditionalInformation) (N : Nat)
    (hcc : ∀ k < N, (d (k + 1)).callerCaller = if k + 1 = N then m else q (k + 2))
    (hmsg : ∀ k < N, (d (k + 1)).msg ≠ "")
    (hadj : ∀ k < N - 1, q (k + 1) ≠ q (k + 2))
    (hlast : q N ≠ m) :
    ∀ k, k ≤ N → ∀ (locs : List Location) (links : List WrapLink),
      (walkFrames res (chainCapture p1 m q N) (k + 1)
        (cursorAt d (Err.root (chainCapture p1 m q N) none none) k) locs links).2 =
      links ++ ((List.range k).reverse.map (fun i => mkLink res (d (i + 1)))) := by
  intro k
  induction k with
  | zero =>
    intro _ locs links
    have hne : (0 : Nat) ≠ (chainCapture p1 m q N).length - 1 := by
      rw [chainCapture_length]
      omega
    simp [walkFrames, cursorAt, hne, consumeLinks_none]
  | succ k ih =>
    intro hk locs links
    have hne : (k + 1 : Nat) ≠ (chainCapture p1 m q N).length - 1 := by
      rw [chainCapture_length]
      omega
    have hget : (chainCapture p1 m q N).getD (k + 1 + 1) 0 =
        if k + 1 = N then m else q (k + 2) := chainCapture_getD p1 m q N (k + 1) hk
    have hconsume :
        consumeLinks res ((chainCapture p1 m q N).getD (k + 1 + 1) 0)
          (cursorAt d (Err.root (chainCapture p1 m q N) none none) (k + 1)) locs links =
        (addCallerLocation locs (getLocation res (d (k + 1)).caller),
         links ++ [mkLink res (d (k + 1))],
         cursorAt d (Err.root (chainCapture p1 m q N) none none) k) := by
      rw [show cursorAt d (Err.root (chainCapture p1 m q N) none none) (k + 1) =
        some (chainN d (Err.root (chainCapture p1 m q N) none none) (k + 1)) from rfl]
      rw [consumeLinks_step res _ _ locs links
        (by rw [infoOf_chainN, hget]; exact hcc k (by omega))
        (by rw [infoOf_chainN]; exact hmsg k (by omega))]
      rw [infoOf_chainN, nextSFE_chainN]
      cases k with
      | zero => rw [show cursorAt d (Err.root (chainCapture p1 m q N) none none) 0 =
          none from rfl, consumeLinks_none]
      | succ j =>
        rw [show cursorAt d (Err.root (chainCapture p1 m q N) none none) (j + 1) =
          some (chainN d (Err.root (chainCapture p1 m q N) none none) (j + 1)) from rfl]
        rw [consumeLinks_stop]
        rw [infoOf_chainN, hget]
        have hj : (d (j + 1)).callerCaller = q (j + 2) := by
          rw [hcc j (by omega)]
          have : ¬(j + 1 = N) := by omega
          simp [this]
        rw [hj]
        by_cases hN2 : j + 1 + 1 = N
        · rw [if_pos hN2, show j + 2 = N from by omega]
          exact hlast
        · rw [if_neg hN2]
          exact hadj (j + 1) (by omega)
    rw [walkFrames_succ]
    rw [if_pos hne]
    simp only [hconsume]
    rw [ih (by omega)]
    rw [List.range_succ]
    simp
/-- C6: a chain of `N ≥ 1` wraps (each with a non-empty message) over a
single Root, with the captures correlated as stack propagation produces them
(`hcc`: each wrap's `callerCaller` is the next capture entry; `hadj`,
`hlast`: adjacent capture entries are distinct call sites), unpacks to a
hierarchy with **no** sub-hierarchies, no external error, and all `N` links
in one flat sequence in outer-to-inner call order. -/
theorem wrap_chain_flattens (res : Nat → Location) (p1 m : Nat) (q : Nat → Nat)
    (d : Nat → AdditionalInformation) (N : Nat) (hN : 1 ≤ N)
    (hcc : ∀ k < N, (d (k + 1)).callerCaller = if k + 1 = N then m else q (k + 2))
    (hmsg : ∀ k < N, (d (k + 1)).msg ≠ "")
    (hadj : ∀ k < N - 1, q (k + 1) ≠ q (k + 2))
    (hlast : q N ≠ m) :
    (unpack res (some (chainN d (Err.root (chainCapture p1 m q N) none none) N)) 0).map
        (fun h => (h.Links, h.SubHierarchies, h.ErrExternal)) =
      some ((List.range N).reverse.map (fun i => mkLink res (d (i + 1))), [], none) := by
  obtain ⟨n, rfl⟩ : ∃ n, N = n + 1 := ⟨N - 1, by omega⟩
  have hcap : ¬(chainCapture p1 m q (n + 1)).isEmpty = true := by simp [chainCapture]
  rw [unpack_rootEq res _ 0 (chainCapture p1 m q (n + 1)) none none
    (Cause_chainN d _ hcap (n + 1))]
  have hget1 : (chainCapture p1 m q (n + 1)).get? 1 = some (q 1) := by
    simp [chainCapture, List.range_succ_eq_map]
  rw [hget1]
  have hstart : (callerStartIndex (chainCapture p1 m q (n + 1)) 0 + 1).toNat =
      ((n + 1) + 1) + 1 := by
    simp [callerStartIndex, chainCapture_length]
    omega
  rw [hstart]
  rw [show initialSFE (some (chainN d
      (Err.root (chainCapture p1 m q (n + 1)) none none) (n + 1))) =
    cursorAt d (Err.root (chainCapture p1 m q (n + 1)) none none) (n + 1) from by
      simp [chainN, initialSFE, cursorAt]]
  rw [walkFrames_succ]
  rw [if_neg (show ¬((n + 1) + 1 ≠ (chainCapture p1 m q (n + 1)).length - 1) from by
    rw [chainCapture_length]; omega)]
  have hwalk := walkFrames_chain res p1 m q d (n + 1) hcc hmsg hadj hlast (n + 1)
    (Nat.le_refl _)
  simp only [hwalk]
  rw [unpack_noAnchorEq res none (q 1) (by simp [Cause])]
  simp [flatten]

/-- C6 witness at `N = 2`: capture `[1, 10, 20, 99]`, wrap 1 created at
`101` under caller site `20`, wrap 2 at `102` under caller site `99`. -/
theorem wrap_chain_flattens_witness :
    (unpack res0 (some (chainN
        (fun k => ⟨100 + k, if k = 2 then 99 else 10 * (k + 1), [], "w", []⟩)
        (Err.root (chainCapture 1 99 (fun k => 10 * k) 2) none none) 2)) 0).map
        (fun h => (h.Links, h.SubHierarchies, h.ErrExternal)) =
      some ([⟨"w", [], [], ⟨"f", 102, "fn"⟩⟩, ⟨"w", [], [], ⟨"f", 101, "fn"⟩⟩], [], none) := by
  have := wrap_chain_flattens res0 1 99 (fun k => 10 * k)
    (fun k => ⟨100 + k, if k = 2 then 99 else 10 * (k + 1), [], "w", []⟩) 2
    (by decide) (by decide) (by decide) (by decide) (by decide)
  rw [this]
  simp [mkLink, getLocation, res0, List.range_succ]

theorem built_anchor_exists_witness :
    ∃ a, Cause (some (WrapDepths [8, 9] [3, 4]
        (some (ErrorDepths [1, 2] [] "root" [])) [] "outer" [])) = some a ∧
      isAnchor a = true ∧ Callers a ≠ [] :=
  built_anchor_exists _
    (Built.ofWraps [8, 9] [3, 4] (some (ErrorDepths [1, 2] [] "root" [])) [] "outer" []
      (by simp))

/-! ## String renderer (format.go) -/

/-- format.go `FormatOptions`. -/
structure FormatOptions where
  LocationFormatFunc : Location → String
  WithTrace : Bool

/-- format.go `DefaultLocationFormatFunc`. -/
def DefaultLocationFormatFunc (frame : Location) : String :=
  frame.Filename ++ ":" ++ toString frame.Line ++ "(" ++ frame.FuncName ++ ")"

/-- format.go `StringFormat`. `FieldFormatFunc` stands for the host
`fmt.Sprint` dump of a field map. -/
structure StringFormat where
  Options : FormatOptions
  MsgStackSep : String
  PreStackSep : String
  StackElemSep : String
  ErrorSep : String
  FieldFormatFunc : List (String × String) → String

/-- Go `strings.Repeat`. -/
def strRepeat (s : String) : Nat → String
  | 0 => ""
  | n + 1 => s ++ strRepeat s n

theorem strRepeat_empty (n : Nat) : strRepeat "" n = "" := by
  induction n with
  | zero => rfl
  | succ n ih => simp [strRepeat, ih]

/-- format.go `NewDefaultStringFormat`; `ff` is the host-primitive
`DefaultFieldFormat` (`fmt.Sprint` of the map). Unset separators are the Go
zero value `""`. -/
def NewDefaultStringFormat (ff : List (String × String) → String)
    (options : FormatOptions) : StringFormat :=
  if options.WithTrace then
    ⟨options, "\n", "\t", "\n", "\n", ff⟩
  else
    ⟨options, "", "", "", ": ", ff⟩

/-- The frame-sync loop of format.go lines 257-260 inside `toCustomString`:
emit pending frames until the link's own location is reached (bounded by
`len - 1`). -/
def emitFrames (format : StringFormat) (level : Nat) (locs : List Location)
    (target : Location) (stackIndex : Nat) : String × Nat :=
  if h : stackIndex < locs.length - 1 ∧ locs.getD stackIndex ⟨"", 0, ""⟩ ≠ target then
    let s := strRepeat format.PreStackSep level ++
      format.Options.LocationFormatFunc (locs.getD stackIndex ⟨"", 0, ""⟩) ++
      format.StackElemSep
    let r := emitFrames format level locs target (stackIndex + 1)
    (s ++ r.1, r.2)
  else ("", stackIndex)
termination_by locs.length - stackIndex
decreasing_by omega

/-- One iteration of the link loop of format.go lines 254-270: the optional
trace block (frame sync, then the link's own location), then the
interpolated message, the field dump, and the error separator. Returns the
emitted text and the updated `stackIndex`. -/
def renderLink (format : StringFormat) (spf : String → List String → String)
    (level : Nat) (locs : List Location) (link : WrapLink) (stackIndex : Nat) :
    String × Nat :=
  let t :=
    if format.Options.WithTrace then
      if stackIndex = 0 ∨ locs.getD (stackIndex - 1) ⟨"", 0, ""⟩ ≠ link.CallerLocation then
        let r := emitFrames format level locs link.CallerLocation stackIndex
        (r.1 ++ strRepeat format.PreStackSep level ++
          format.Options.LocationFormatFunc link.CallerLocation ++ format.MsgStackSep,
         r.2 + 1)
      else ("", stackIndex)
    else ("", stackIndex)
  let f := if link.Fields ≠ [] then
      strRepeat format.PreStackSep (level + 1) ++ format.FieldFormatFunc link.Fields
    else ""
  (t.1 ++ spf link.Msg link.MsgArgs ++ f ++ format.ErrorSep, t.2)

/-- The link loop of format.go lines 254-270. -/
def renderLinks (format : StringFormat) (spf : String → List String → String)
    (level : Nat) (locs : List Location) : List WrapLink → Nat → String × Nat
  | [], si => ("", si)
  | l :: ls, si =>
    let r := renderLink format spf level locs l si
    let rest := renderLinks format spf level locs ls r.2
    (r.1 ++ rest.1, rest.2)

/-- The trailing-frame loop of format.go lines 271-276. -/
def trailFrames (format : StringFormat) (level : Nat) (locs : List Location)
    (stackIndex : Nat) : String :=
  if stackIndex < locs.length then
    strRepeat format.PreStackSep level ++
      format.Options.LocationFormatFunc (locs.getD stackIndex ⟨"", 0, ""⟩) ++
      format.StackElemSep ++ trailFrames format level locs (stackIndex + 1)
  else ""
termination_by locs.length - stackIndex
decreasing_by omega

theorem List_UH_sizeOf_pos (l : List UnpackHierarchy) : 0 < sizeOf l := by
  cases l <;> simp_arith

mutual

/-- format.go `toCustomString` (lines 251-288): links (with their trace
blocks), trailing frames in trace mode, the external error, then the
sub-hierarchies. `spf` is the host `fmt.Sprintf`, `showE` the host
`fmt.Sprint` of the external error value. -/
def toCustomString (spf : String → List String → String) (showE : Err → String)
    (hierarchy : UnpackHierarchy) (format : StringFormat) (level : Nat) : String :=
  (renderLinks format spf level hierarchy.CallerLocations hierarchy.Links 0).1 ++
  (if format.Options.WithTrace then
      trailFrames format level hierarchy.CallerLocations
        (renderLinks format spf level hierarchy.CallerLocations hierarchy.Links 0).2
    else "") ++
  (match hierarchy.ErrExternal with
   | some e => strRepeat format.PreStackSep level ++ showE e ++ format.ErrorSep
   | none => "") ++
  toCustomStringList spf showE hierarchy.SubHierarchies format level 0
termination_by sizeOf hierarchy
decreasing_by
  cases hierarchy
  simp
  all_goals omega

/-- The sub-hierarchy loop of format.go lines 280-285: in trace mode each
branch is labeled `#i` at the current level; branches render one level
deeper. -/
def toCustomStringList (spf : String → List String → String) (showE : Err → String)
    (subs : List UnpackHierarchy) (format : StringFormat) (level : Nat) (i : Nat) :
    String :=
  match subs with
  | [] => ""
  | s :: rest =>
    (if format.Options.WithTrace then
        strRepeat format.PreStackSep level ++ "#" ++ toString i ++ format.StackElemSep
      else "") ++
    toCustomString spf showE s format (level + 1) ++
    toCustomStringList spf showE rest format level (i + 1)
termination_by sizeOf subs
decreasing_by
  all_goals have := List_UH_sizeOf_pos rest
  all_goals simp
  all_goals omega

end

/-- format.go `ToCustomString`: reconstruct, then render at level 1 (`none`
when the reconstruction panics, see C1). -/
def ToCustomString (res : Nat → Location) (spf : String → List String → String)
    (showE : Err → String) (err : Option Err) (format : StringFormat) : Option String :=
  (unpack res err 0).map (fun frames => toCustomString spf showE frames format 1)

/-- format.go `ToString`: render with the default format over the default
location formatter; `ff` stands for the host `DefaultFieldFormat`. -/
def ToString (res : Nat → Location) (spf : String → List String → String)
    (showE : Err → String) (ff : List (String × String) → String)
    (err : Option Err) (withTrace : Bool) : Option String :=
  ToCustomString res spf showE err
    (NewDefaultStringFormat ff ⟨DefaultLocationFormatFunc, withTrace⟩)

/-! ### C9: trace-free rendering never touches locations -/

/-- One no-trace line per link, as the spec words it: the interpolated
message, the field dump when fields are present, the separator. -/
def specLinkTexts (spf : String → List String → String)
    (ff : List (String × String) → String) (sep : String) : List WrapLink → String
  | [] => ""
  | l :: ls =>
    spf l.Msg l.MsgArgs ++ (if l.Fields ≠ [] then ff l.Fields else "") ++ sep ++
      specLinkTexts spf ff sep ls

mutual

/-- The spec's description of rendering without trace: only the links'
interpolated messages and field dumps and any terminal external error's
text, joined by the configured separator; call frames are suppressed — note
this function consults no location and takes no location formatter. -/
def specNoTraceRender (spf : String → List String → String) (showE : Err → String)
    (ff : List (String × String) → String) (sep : String) (h : UnpackHierarchy) : String :=
  specLinkTexts spf ff sep h.Links ++
  (match h.ErrExternal with
   | some e => showE e ++ sep
   | none => "") ++
  specNoTraceRenderList spf showE ff sep h.SubHierarchies
termination_by sizeOf h
decreasing_by
  cases h
  simp
  all_goals omega

def specNoTraceRenderList (spf : String → List String → String) (showE : Err → String)
    (ff : List (String × String) → String) (sep : String)
    (subs : List UnpackHierarchy) : String :=
  match subs with
  | [] => ""
  | s :: rest =>
    specNoTraceRender spf showE ff sep s ++ specNoTraceRenderList spf showE ff sep rest
termination_by sizeOf subs
decreasing_by
  all_goals have := List_UH_sizeOf_pos rest
  all_goals simp
  all_goals omega

end

theorem renderLinks_noTrace (spf : String → List String → String)
    (ff : List (String × String) → String) (locF : Location → String)
    (level : Nat) (locs : List Location) :
    ∀ (links : List WrapLink) (si : Nat),
      renderLinks (NewDefaultStringFormat ff ⟨locF, false⟩) spf level locs links si =
        (specLinkTexts spf ff ": " links, si)
  | [], si => by simp [renderLinks, specLinkTexts]
  | l :: ls, si => by
    simp only [renderLinks, renderLink, specLinkTexts]
    rw [renderLinks_noTrace spf ff locF level locs ls]
    simp [NewDefaultStringFormat, strRepeat_empty]

mutual

theorem toCustomString_noTrace (spf : String → List String → String) (showE : Err → String)
    (ff : List (String × String) → String) (locF : Location → String)
    (h : UnpackHierarchy) (level : Nat) :
    toCustomString spf showE h (NewDefaultStringFormat ff ⟨locF, false⟩) level =
      specNoTraceRender spf showE ff ": " h := by
  obtain ⟨ext, locs, links, subs⟩ := h
  simp only [toCustomString, specNoTraceRender]
  rw [renderLinks_noTrace]
  rw [toCustomStringList_noTrace spf showE ff locF subs level 0]
  cases ext with
  | none => simp [NewDefaultStringFormat]
  | some e => simp [NewDefaultStringFormat, strRepeat_empty]
termination_by sizeOf h
decreasing_by
  simp
  all_goals omega

theorem toCustomStringList_noTrace (spf : String → List String → String)
    (showE : Err → String) (ff : List (String × String) → String)
    (locF : Location → String) (subs : List UnpackHierarchy) (level i : Nat) :
    toCustomStringList spf showE subs (NewDefaultStringFormat ff ⟨locF, false⟩) level i =
      specNoTraceRenderList spf showE ff ": " subs := by
  match subs with
  | [] => simp only [toCustomStringList, specNoTraceRenderList]
  | s :: rest =>
    simp only [toCustomStringList, specNoTraceRenderList]
    rw [toCustomString_noTrace spf showE ff locF s (level + 1)]
    rw [toCustomStringList_noTrace spf showE ff locF rest level (i + 1)]
    simp [NewDefaultStringFormat]
termination_by sizeOf subs
decreasing_by
  all_goals have := List_UH_sizeOf_pos rest
  all_goals simp
  all_goals omega

end

/-- C9: `ToString(err, false)` (the default no-trace rendering) is the
location-free function of the hierarchy: links' interpolated messages and
field dumps and any terminal external error text joined by `": "` — no call
frame, hence no file path or line number, can occur (`specNoTraceRender`
takes no location formatter and reads no `CallerLocation`), for every error
and every choice of the host primitives. -/
theorem toString_noTrace (res : Nat → Location) (spf : String → List String → String)
    (showE : Err → String) (ff : List (String × String) → String) (err : Option Err) :
    ToString res spf showE ff err false =
      (unpack res err 0).map (specNoTraceRender spf showE ff ": ") := by
  unfold Serr.ToString Serr.ToCustomString
  cases unpack res err 0 with
  | none => rfl
  | some h =>
    have := toCustomString_noTrace spf showE ff DefaultLocationFormatFunc h 1
    simp [this]

end Serr
